import Mathlib

/-!
Verification of the H5Coro read-only HDF5 reader (sliderule repository).

The definitions below are shallow embeddings of the C++ functions of the
file-reader module (`H5FileBuffer` / `H5Coro`).  Machine integers are
modelled as `Nat` / `Int`; where the C code performs `uint64_t` arithmetic
that can wrap, the reduction modulo `2 ^ 64` is made explicit.  Heap
buffers (`uint8_t*`) are modelled as lists of byte values, or, where only
identity matters (cache ownership), as numeric identifiers.
-/

/-- Number of distinct values of a `uint64_t` (`2 ^ 64`); used to model the
wrap-around of unsigned 64-bit arithmetic. -/
def U64_LIMIT : Nat := 18446744073709551616

/-- Modelled from the spec: the `ALL_ROWS` sentinel accepted for `num_rows`.
The constant is declared in `H5Coro.h`, which is not among the sources at
hand; spec section 6 gives its value as `-1`. -/
def ALL_ROWS : Int := -1

/-- Modelled from the spec: line mask of the L1 I/O cache (lines of about
16 KiB; the exact value is tunable configuration from `H5Coro.h`, which is
not among the sources).  None of the theorems depends on the value. -/
def IO_CACHE_L1_MASK : Nat := 0x3FFF

/-- Modelled from the spec: line size of the L1 I/O cache, one more than
`IO_CACHE_L1_MASK`. -/
def IO_CACHE_L1_LINESIZE : Nat := 0x4000

/-- Modelled from the spec: line mask of the L2 I/O cache (lines of about
1 MiB; tunable configuration from `H5Coro.h`). -/
def IO_CACHE_L2_MASK : Nat := 0xFFFFF

/-- Embedding of `H5FileBuffer::cache_entry_t`: file position of the cached
range, number of valid bytes, and an identifier standing for the heap
buffer held in `data`. -/
structure CacheEntry where
  pos : Nat
  size : Nat
  data : Nat
  deriving DecidableEq

/-- Embedding of `H5FileBuffer::ioCheckCache`.  The cache container itself
(`Dictionary::find` with `MATCH_NEAREST_UNDER`) lives in a header that is
not among the sources, so the probe is abstracted as a function `find`
from a looked-up position to the entry found there, and the theorems hold
for every such probe.  The containment test reproduces the `uint64_t` additions of the C
comparison.  `ioPrevLinePos` reproduces the `uint64_t` wrap-around of
`(pos & ~line_mask) - 1` (complementing in 64 bits and subtracting one
modulo `2 ^ 64`). -/
def ioPrevLinePos (pos line_mask : Nat) : Nat :=
  (Nat.land pos (U64_LIMIT - 1 - line_mask) + (U64_LIMIT - 1)) % U64_LIMIT

/-- Embedding of the lookup half of `ioCheckCache`: probe the line of `pos`
and, when `pos` does not sit at the very start of the address space
(`check_prev`, the roll-over test `pos > prev_line_pos`), also the
previous line. -/
def ioCacheFound (pos : Nat) (find : Nat → Option CacheEntry)
    (line_mask : Nat) : Option CacheEntry :=
  match find pos with
  | some e => some e
  | none =>
      if ioPrevLinePos pos line_mask < pos then
        find (ioPrevLinePos pos line_mask)
      else
        none

def ioCheckCache (size pos : Nat) (find : Nat → Option CacheEntry)
    (line_mask : Nat) : Option CacheEntry :=
  match ioCacheFound pos find line_mask with
  | some e =>
      if e.pos ≤ pos ∧ (pos + size) % U64_LIMIT ≤ (e.pos + e.size) % U64_LIMIT then
        some e
      else
        none
  | none => none

/-- Modelled from the spec: the bounded cache container (`Ordering` /
`Dictionary` of `H5Coro.h`, not among the sources).  Spec section 3 calls
it a bounded map and states the invariant that eviction removes the
oldest inserted entry, so the container is modelled as a capacity bound
plus a key-entry list kept in insertion order, oldest first. -/
structure Cache where
  capacity : Nat
  entries : List (Nat × CacheEntry)
  deriving DecidableEq

/-- Modelled from the spec: `isfull` of the bounded map. -/
def Cache.isfull (c : Cache) : Bool :=
  decide (c.capacity ≤ c.entries.length)

/-- Modelled from the spec: `first` enumerates the oldest inserted entry
(`INVALID_KEY`, returned on an empty container, is modelled as `none`). -/
def Cache.firstEntry (c : Cache) : Option (Nat × CacheEntry) :=
  c.entries.head?

/-- Modelled from the spec: removal by key from the bounded map. -/
def Cache.removeKey (c : Cache) (k : Nat) : Cache :=
  ⟨c.capacity, c.entries.filter (fun p => p.1 ≠ k)⟩

/-- Modelled from the spec: insertion into the bounded map; a duplicate key
supersedes the stored entry, a fresh key is appended as newest. -/
def Cache.addEntry (c : Cache) (k : Nat) (e : CacheEntry) : Cache :=
  ⟨c.capacity, c.entries.filter (fun p => p.1 ≠ k) ++ [(k, e)]⟩

/-- Embedding of the insertion block of `H5FileBuffer::ioRequest` (the
section under the second mutex hold): if the selected cache is full, its
first (oldest) entry is freed and removed, then the new entry is added
keyed by the file position.  Returns the updated cache together with the
identifiers of the freed data buffers. -/
def cacheInsertStep (c : Cache) (key : Nat) (e : CacheEntry) :
    Cache × List Nat :=
  if c.isfull then
    match c.firstEntry with
    | some (k0, e0) => ((c.removeKey k0).addEntry key e, [e0.data])
    | none => (c.addEntry key e, [])
  else
    (c.addEntry key e, [])

/-- Embedding of `H5FileBuffer::io_context_t`: the two caches and the read
statistics (the mutex is immaterial to a sequential model). -/
structure IoContext where
  l1 : Cache
  l2 : Cache
  read_rqsts : Nat
  bytes_read : Nat
  deriving DecidableEq

/-- Observable outcome of one `ioRequest` call: the entry backing the
returned pointer together with the offset of the requested range inside
it, the error raised (if any), the backend reads issued as
position-size pairs, the final context, the identifiers of freed data
buffers, and the `*cached` out-parameter. -/
structure IoReqOut where
  buffer : Option (CacheEntry × Nat)
  err : Option String
  reads : List (Nat × Nat)
  ctx : IoContext
  freed : List Nat
  cachedFlag : Bool
  deriving DecidableEq

/-- Embedding of `H5FileBuffer::ioRequest`.  The cache probes are the two
`ioCheckCache` calls (their container lookups abstracted as `findL1` /
`findL2`); `backend` gives the number of bytes `ioRead` returns for a
positional read of a given size (a short count models a short read), and
`newBufId` stands for the address of the freshly allocated buffer.  On a
hit the entry's buffer is returned at offset `pos - entry.pos`; on a miss
`read_size = max(size, hint)` bytes are requested from the backend, a
short count (fewer than `size` bytes) raises the bounds error before
anything is cached, and otherwise the entry is inserted into L1 when the
returned size is at most the L1 line size, else into L2, evicting the
oldest entry of a full cache. -/
def ioRequest (size pos hint : Nat) (findL1 findL2 : Nat → Option CacheEntry)
    (ctx : IoContext) (backend : Nat → Nat → Nat) (newBufId : Nat) :
    IoReqOut :=
  match (ioCheckCache size pos findL1 IO_CACHE_L1_MASK).orElse
      (fun _ => ioCheckCache size pos findL2 IO_CACHE_L2_MASK) with
  | some e =>
      ⟨some (e, pos - e.pos), none, [], ctx, [], false⟩
  | none =>
      let read_size := max size hint
      let got := backend pos read_size
      let entry : CacheEntry := ⟨pos, got, newBufId⟩
      if got < size then
        ⟨none, some "failed to read at least size bytes of data", [(pos, read_size)],
          ctx, [], false⟩
      else if got ≤ IO_CACHE_L1_LINESIZE then
        ⟨some (entry, 0), none, [(pos, read_size)],
          ⟨(cacheInsertStep ctx.l1 pos entry).1, ctx.l2,
            ctx.read_rqsts + 1, ctx.bytes_read + got⟩,
          (cacheInsertStep ctx.l1 pos entry).2, true⟩
      else
        ⟨some (entry, 0), none, [(pos, read_size)],
          ⟨ctx.l1, (cacheInsertStep ctx.l2 pos entry).1,
            ctx.read_rqsts + 1, ctx.bytes_read + got⟩,
          (cacheInsertStep ctx.l2 pos entry).2, true⟩

/-- Error values of the reader's fatal exceptions: one constructor per
distinct `RunTimeException` site among the embedded functions. -/
inductive H5Err
  | missingTypeInfo
  | outOfRange
  | invalidAddress
  | exceedsData
  | filtersOnNonChunked
  | invalidDataLocation
  | invalidChunkLocation
  | noChunkBytes
  | shuffleSizeInvalid
  | readFailed
  | openFailed
  deriving DecidableEq

/-- Embedding of the `RecordObject` value types the reader assigns. -/
inductive ValType
  | dynamic
  | integer
  | real
  | text
  deriving DecidableEq

/-- Embedding of `H5FileBuffer::layout_t`. -/
inductive H5Layout
  | compact
  | contiguous
  | chunked
  | unknownLayout
  deriving DecidableEq

/-- Embedding of `H5FileBuffer::data_type_t`; only the constructors that
`readDataset` branches on are distinguished, every other type value is
`otherType`. -/
inductive H5DataType
  | fixedPoint
  | floatingPoint
  | stringType
  | otherType
  deriving DecidableEq

/-- Embedding of the `H5FileBuffer::meta_data_t` fields that `readDataset`
and the chunk walker consume. -/
structure H5MetaData where
  typesize : Nat
  ndims : Nat
  dimensions : List Nat
  fill : Nat
  fillsize : Nat
  typeKind : H5DataType
  layout : H5Layout
  address : Nat
  size : Nat
  filterDeflate : Bool
  filterShuffle : Bool
  deriving DecidableEq

/-- Embedding of `H5Coro::info_t` / `dataset_info_t`; the `data` pointer is
`none` for NULL and otherwise carries the buffer bytes. -/
structure DatasetInfo where
  typesize : Nat
  elements : Nat
  datasize : Nat
  data : Option (List Nat)
  datatype : ValType
  numrows : Nat
  numcols : Nat
  deriving DecidableEq

/-- Embedding of the row-size loop of `readDataset`: `row_size` starts at
`typesize` and is multiplied by `dimensions[d]` for `d = 1 .. ndims-1`. -/
def rowSizeLoop (typesize ndims : Nat) (dims : List Nat) : Nat :=
  ((List.range ndims).drop 1).foldl (fun acc d => acc * dims.getD d 0) typesize

/-- The row size of a dataset described by `m`. -/
def rowSize (m : H5MetaData) : Nat :=
  rowSizeLoop m.typesize m.ndims m.dimensions

/-- Embedding of `first_dimension` in `readDataset`: `dimensions[0]` when
`ndims > 0`, else 0. -/
def firstDimension (m : H5MetaData) : Nat :=
  if 0 < m.ndims then m.dimensions.getD 0 0 else 0

/-- Embedding of the `ALL_ROWS` substitution of `readDataset`. -/
def adjNumRows (m : H5MetaData) (numrows : Int) : Int :=
  if numrows = ALL_ROWS then (firstDimension m : Int) else numrows

/-- The substituted row count as a natural number; for the feasible calls
(`numrows` non-negative or `ALL_ROWS`) this coincides with the value the C
code compares and multiplies with. -/
def adjNumRowsN (m : H5MetaData) (numrows : Int) : Nat :=
  (adjNumRows m numrows).toNat

/-- Embedding of `buffer_size = row_size * datasetNumRows`. -/
def bufferSizeOf (m : H5MetaData) (numrows : Int) : Nat :=
  rowSize m * adjNumRowsN m numrows

/-- Embedding of the buffer allocation with fill-value tiling of
`readDataset`: byte `i` of the fresh buffer holds byte `i mod fillsize` of
the fill value when a fill value is present (`fillsize > 0`) and is left
as freshly allocated (modelled as 0) otherwise. -/
def allocFilled (buffer_size fillsize fill : Nat) : List Nat :=
  (List.range buffer_size).map
    (fun i => if 0 < fillsize then fill / 256 ^ (i % fillsize) % 256 else 0)

/-- Embedding of the info-struct population of `readDataset` (elements,
datasize, data, datatype, numrows, numcols). -/
def dataInfoOf (m : H5MetaData) (numrows : Int) : DatasetInfo :=
  ⟨m.typesize,
    bufferSizeOf m numrows / m.typesize,
    bufferSizeOf m numrows,
    if 0 < bufferSizeOf m numrows then
      some (allocFilled (bufferSizeOf m numrows) m.fillsize m.fill)
    else none,
    if m.typeKind = H5DataType.fixedPoint then ValType.integer
    else if m.typeKind = H5DataType.floatingPoint then ValType.real
    else if m.typeKind = H5DataType.stringType then ValType.text
    else ValType.dynamic,
    adjNumRowsN m numrows,
    if m.ndims = 0 then 0
    else if m.ndims = 1 then 1
    else m.dimensions.getD 1 0⟩

/-- Embedding of `H5FileBuffer::readDataset` up to and including its
error-checking block (source lines 614-695): info population, the
`ALL_ROWS` substitution, the out-of-range check, the buffer allocation
with fill tiling, and the validity checks.  The layout dispatch that
follows performs I/O and is embedded separately (`ioRequest`,
`chunkOffsetCalc`, `chunkCopyParams`, `shuffleChunk`); for a zero-sized
buffer the code skips that dispatch (`buffer_size > 0` guard), so there
this function is the whole of `readDataset`.  `startrow` and `numrows`
are `long`s; the embedding covers the feasible regime (`startrow ≥ 0`,
`numrows ≥ 0` or `ALL_ROWS`), in which the C `uint64_t` comparison
against the first dimension coincides with the one below. -/
def readDataset (m : H5MetaData) (startrow : Nat) (numrows : Int)
    (errorChecking : Bool) : Except H5Err DatasetInfo :=
  if m.typesize = 0 then .error H5Err.missingTypeInfo
  else if firstDimension m < startrow + adjNumRowsN m numrows then
    .error H5Err.outOfRange
  else if errorChecking then
    if m.address = U64_LIMIT - 1 then .error H5Err.invalidAddress
    else if m.size ≠ 0 ∧ m.size < rowSize m * startrow + bufferSizeOf m numrows then
      .error H5Err.exceedsData
    else if (m.filterDeflate ∨ m.filterShuffle) ∧
        (m.layout = H5Layout.compact ∨ m.layout = H5Layout.contiguous) then
      .error H5Err.filtersOnNonChunked
    else .ok (dataInfoOf m numrows)
  else .ok (dataInfoOf m numrows)

/-- Embedding of the data-valid gate of `H5Coro::read` (source lines
3129-3132): a NULL data pointer after `readDataset` raises the
failed-to-read error; otherwise the info is passed on. -/
def h5ReadGate (info : DatasetInfo) : Except H5Err DatasetInfo :=
  match info.data with
  | none => .error H5Err.readFailed
  | some _ => .ok info

/-- Embedding of the per-row copy loop of the column translation in
`H5Coro::read` (source lines 2961-2969): row `r` contributes the
`col_size` bytes found at input offset `r * row_size + col * col_size`,
written back to back in row order. -/
def colCopy (data : List Nat) (row_size col_size col : Nat) : Nat → List Nat
  | 0 => []
  | rows + 1 =>
      colCopy data row_size col_size col rows ++
        (List.range col_size).map
          (fun j => data.getD (rows * row_size + col * col_size + j) 0)

/-- Embedding of the column-translation block of `H5Coro::read` (source
lines 2955-2976): per-row sizes are recomputed from the info struct
(`tbuf_row_size = datasize / numrows`, `tbuf_col_size = tbuf_row_size /
numcols`), one element per row is copied into the new buffer, and the
buffer, its size (`datasize / numcols`) and the element count
(`elements / numcols`) are replaced. -/
def h5ColumnStep (info : DatasetInfo) (col : Nat) : DatasetInfo :=
  ⟨info.typesize,
    info.elements / info.numcols,
    info.datasize / info.numcols,
    some (colCopy (info.data.getD []) (info.datasize / info.numrows)
      (info.datasize / info.numrows / info.numcols) col info.numrows),
    info.datatype,
    info.numrows,
    info.numcols⟩

/-- Embedding of the chunk-offset loop of the leaf branch of `readBTreeV1`
(source lines 1303-1313): for each dimension `i`, `slice[i] * typesize` is
multiplied by every dimension beyond `i` and the results are summed. -/
def chunkOffsetCalc (slice dims : List Nat) (typesize ndims : Nat) : Nat :=
  ((List.range ndims).map (fun i =>
      ((List.range ndims).drop (i + 1)).foldl
        (fun acc j => acc * dims.getD j 0) (slice.getD i 0 * typesize))).sum

/-- Embedding of the copy-parameter computation of the leaf branch of
`readBTreeV1` (source lines 1315-1346): the buffer index (offset into the
output buffer), the chunk index (offset into the chunk buffer) and the
chunk byte count with its final clamp, together with the three range
checks.  The `uint64_t` / `int64_t` quantities are modelled as integers;
every call site passes non-negative values. -/
def chunkCopyParams (co bo bs cbs : Int) : Except H5Err (Int × Int × Int) :=
  if bo < co ∧ bs ≤ co - bo then .error H5Err.invalidDataLocation
  else if co < bo ∧ cbs ≤ bo - co then .error H5Err.invalidChunkLocation
  else if cbs - (if co < bo then bo - co else 0) < 0 then .error H5Err.noChunkBytes
  else .ok (if bo < co then co - bo else 0,
    if co < bo then bo - co else 0,
    if bs < (if bo < co then co - bo else 0) + (cbs - (if co < bo then bo - co else 0))
      then bs - (if bo < co then co - bo else 0)
      else cbs - (if co < bo then bo - co else 0))

/-- Embedding of `H5FileBuffer::shuffleChunk` (source lines 2842-2866).
The guard reproduces the C check `type_size < 0 || type_size > 8`.  The
de-shuffle loop writes, for each element index `e` in
`[start_element, start_element + num_elements)` with
`start_element = output_offset / type_size` and
`num_elements = output_size / type_size`, the bytes
`input[v * shuffle_block_size + e]` for the planes `v < type_size`, where
`shuffle_block_size = input_size / type_size`.  The C divisions are
`int64_t` divisions; at `type_size = 0` the C division is an undefined
division by zero, which this total model renders as 0 — the theorem about
this function relies only on the guard's behaviour. -/
def shuffleChunk (input : List Nat) (output_offset output_size : Nat)
    (type_size : Int) (errorChecking : Bool) : Except H5Err (List Nat) :=
  if errorChecking ∧ (type_size < 0 ∨ 8 < type_size) then
    .error H5Err.shuffleSizeInvalid
  else
    .ok ((List.range (output_size / type_size.toNat)).flatMap
      (fun k => (List.range type_size.toNat).map
        (fun v => input.getD (v * (input.length / type_size.toNat) +
          (output_offset / type_size.toNat + k)) 0)))

/-- Embedding of `H5Coro::traverse` (source lines 3147-3169): `status`
starts out `true`; the body opens the file and walks to the start group
(the whole of that work, the `H5FileBuffer` construction, is abstracted
by its outcome `openWalk`) and frees the returned data; the `catch` block
only logs the failure and leaves `status` untouched; `status` is
returned. -/
def H5Coro.traverse (openWalk : Except H5Err Unit) : Bool :=
  match openWalk with
  | .ok _ => true
  | .error _ => true

/-- Modelled from the spec: `MAX_META_FILENAME`, the fixed size of the
padded meta-URL buffer (declared in `H5Coro.h`, not among the sources;
the spec calls the key source a fixed-size padded string).  The value is
representative configuration; no theorem depends on it. -/
def MAX_META_FILENAME : Nat := 128

/-- Embedding of the basename scan of `H5FileBuffer::metaGetUrl`: the
filename pointer is reset past each slash while walking the resource
string, leaving the suffix after the last slash. -/
def metaBasename (resource : List Char) : List Char :=
  resource.foldl (fun acc c => if c = '/' then [] else acc ++ [c]) []

/-- Embedding of `H5FileBuffer::metaGetUrl` (source lines 2886-2914): the
meta URL is `<basename-of-resource>/<dataset>`, with one leading slash of
the dataset path stripped. -/
def metaGetUrl (resource dataset : List Char) : List Char :=
  metaBasename resource ++ '/' ::
    (match dataset with
     | '/' :: rest => rest
     | l => l)

/-- Embedding of the truncation check of `metaGetUrl`: the URL fits when at
least two NUL terminators remain in the fixed-size buffer. -/
def metaUrlFits (url : List Char) : Bool :=
  decide (url.length ≤ MAX_META_FILENAME - 2)

/-- Embedding of `H5FileBuffer::metaGetKey` (source lines 2871-2881): the
64-bit sum of the little-endian `uint64_t` words of the zero-padded
`MAX_META_FILENAME`-byte buffer holding the URL. -/
def metaGetKey (url : List Char) : Nat :=
  (((List.range (MAX_META_FILENAME / 8)).map (fun w =>
      ((List.range 8).map (fun b =>
        (url.map Char.toNat).getD (8 * w + b) 0 * 256 ^ b)).sum)).sum) % U64_LIMIT

/-- One stored meta-repository record: the full constructed URL (the
`url` field of `meta_data_t`) plus an identifier standing for the rest of
the memoized metadata. -/
structure MetaEntry where
  url : List Char
  payload : Nat
  deriving DecidableEq

/-- Modelled from the spec: `Dictionary::find` with `MATCH_EXACTLY` on the
process-wide meta repository (the container is not among the sources):
the entry stored under exactly the probed key, if any. -/
def metaRepoFind (repo : List (Nat × MetaEntry)) (key : Nat) :
    Option MetaEntry :=
  (repo.find? (fun p => p.1 == key)).map Prod.snd

/-- Embedding of the repository probe of the `H5FileBuffer` constructor
(source lines 233-245): build the meta URL and its key, look the key up,
and report a hit only when the stored URL matches the constructed URL
exactly (`StringLib::match`). -/
def metaLookup (repo : List (Nat × MetaEntry)) (resource dataset : List Char) :
    Option MetaEntry :=
  match metaRepoFind repo (metaGetKey (metaGetUrl resource dataset)) with
  | some m => if m.url = metaGetUrl resource dataset then some m else none
  | none => none

/-- C1: whenever `ioCheckCache` reports a hit with entry `e` (for any probe
function and any line mask), the entry fully contains the requested range:
`e.pos ≤ pos` and `pos + size ≤ e.pos + e.size`; consequently the buffer
that `ioRequest` returns on a cache hit covers all of `[pos, pos + size)`.
The two side conditions state that the `uint64_t` sums compared by the C
code do not wrap, which holds for every feasible file position and read
size. -/
theorem ioCheckCache_hit_contains (size pos line_mask : Nat)
    (find : Nat → Option CacheEntry) (e : CacheEntry)
    (hreq : pos + size < U64_LIMIT) (hent : e.pos + e.size < U64_LIMIT)
    (h : ioCheckCache size pos find line_mask = some e) :
    e.pos ≤ pos ∧ pos + size ≤ e.pos + e.size := by
  unfold ioCheckCache at h
  split at h
  · split at h
    · rename_i hg
      cases h
      rw [Nat.mod_eq_of_lt hreq, Nat.mod_eq_of_lt hent] at hg
      exact hg
    · exact absurd h (by simp)
  · exact absurd h (by simp)

/-- Witness for C1: a concrete probe that finds the entry at position 4 with
10 valid bytes satisfies containment for the request of 3 bytes at
position 5. -/
theorem ioCheckCache_hit_contains_witness :
    (4 : Nat) ≤ 5 ∧ 5 + 3 ≤ 4 + 10 :=
  ioCheckCache_hit_contains 3 5 IO_CACHE_L1_MASK
    (fun p => if p = 5 then some ⟨4, 10, 0⟩ else none) ⟨4, 10, 0⟩
    (by decide) (by decide) (by decide)

/-- C4: on every cache miss `ioRequest` asks the backend for exactly
`read_size = max(size, hint)` bytes starting at `pos`, and the request
raises an error if and only if the backend returns fewer than `size`
bytes; on a cache hit no backend read is issued and no error is raised. -/
theorem ioRequest_backend_contract (size pos hint : Nat)
    (findL1 findL2 : Nat → Option CacheEntry) (ctx : IoContext)
    (backend : Nat → Nat → Nat) (newBufId : Nat) :
    (((ioCheckCache size pos findL1 IO_CACHE_L1_MASK).orElse
        (fun _ => ioCheckCache size pos findL2 IO_CACHE_L2_MASK)).isSome →
      (ioRequest size pos hint findL1 findL2 ctx backend newBufId).reads = [] ∧
      (ioRequest size pos hint findL1 findL2 ctx backend newBufId).err = none) ∧
    (((ioCheckCache size pos findL1 IO_CACHE_L1_MASK).orElse
        (fun _ => ioCheckCache size pos findL2 IO_CACHE_L2_MASK)) = none →
      (ioRequest size pos hint findL1 findL2 ctx backend newBufId).reads =
        [(pos, max size hint)] ∧
      ((ioRequest size pos hint findL1 findL2 ctx backend newBufId).err ≠ none ↔
        backend pos (max size hint) < size)) := by
  constructor
  · intro hhit
    rcases hp : (ioCheckCache size pos findL1 IO_CACHE_L1_MASK).orElse
        (fun _ => ioCheckCache size pos findL2 IO_CACHE_L2_MASK) with _ | e
    · rw [hp] at hhit
      exact absurd hhit (by simp)
    · unfold ioRequest
      rw [hp]
      exact ⟨rfl, rfl⟩
  · intro hmiss
    unfold ioRequest
    rw [hmiss]
    by_cases hshort : backend pos (max size hint) < size
    · rw [if_pos hshort]
      exact ⟨rfl, by simp [hshort]⟩
    · rw [if_neg hshort]
      by_cases hl1 : backend pos (max size hint) ≤ IO_CACHE_L1_LINESIZE
      · rw [if_pos hl1]
        exact ⟨rfl, by simp [hshort]⟩
      · rw [if_neg hl1]
        exact ⟨rfl, by simp [hshort]⟩

/-- Witness for C4: with empty probes (a guaranteed miss) and a backend
returning 10 bytes, the request for 4 bytes at position 7 with hint 9
issues exactly one backend read of 9 bytes at position 7 and raises no
error. -/
theorem ioRequest_backend_contract_witness :
    (ioRequest 4 7 9 (fun _ => none) (fun _ => none) ⟨⟨2, []⟩, ⟨2, []⟩, 0, 0⟩
        (fun _ _ => 10) 1).reads = [(7, max 4 9)] ∧
      ((ioRequest 4 7 9 (fun _ => none) (fun _ => none) ⟨⟨2, []⟩, ⟨2, []⟩, 0, 0⟩
          (fun _ _ => 10) 1).err ≠ none ↔ (fun _ _ => 10 : Nat → Nat → Nat) 7 (max 4 9) < 4) :=
  (ioRequest_backend_contract 4 7 9 (fun _ => none) (fun _ => none)
      ⟨⟨2, []⟩, ⟨2, []⟩, 0, 0⟩ (fun _ _ => 10) 1).2 (by decide)

/-- Auxiliary step lemma: inserting into a full cache whose entries are
`(k0, e0) :: rest` (distinct keys, fresh insertion key) removes exactly
the oldest entry `(k0, e0)`, frees exactly its buffer, and appends the
new entry. -/
theorem cacheInsertStep_full (c : Cache) (key : Nat) (e : CacheEntry)
    (k0 : Nat) (e0 : CacheEntry) (rest : List (Nat × CacheEntry))
    (hent : c.entries = (k0, e0) :: rest)
    (hcap : c.capacity = rest.length + 1)
    (hnodup : (c.entries.map Prod.fst).Nodup)
    (hfresh : key ∉ c.entries.map Prod.fst) :
    cacheInsertStep c key e = (⟨c.capacity, rest ++ [(key, e)]⟩, [e0.data]) := by
  rw [hent] at hnodup hfresh
  simp only [List.map_cons, List.nodup_cons, List.mem_cons] at hnodup hfresh
  have hrest0 : rest.filter (fun p => p.1 ≠ k0) = rest := by
    apply List.filter_eq_self.mpr
    intro a ha
    have : a.1 ≠ k0 := by
      intro hk
      exact hnodup.1 (by rw [← hk]; exact List.mem_map_of_mem Prod.fst ha)
    simpa using this
  have hrestk : rest.filter (fun p => p.1 ≠ key) = rest := by
    apply List.filter_eq_self.mpr
    intro a ha
    have : a.1 ≠ key := by
      intro hk
      exact hfresh (Or.inr (by rw [← hk]; exact List.mem_map_of_mem Prod.fst ha))
    simpa using this
  unfold cacheInsertStep
  have hfull : c.isfull = true := by
    unfold Cache.isfull
    rw [hent, hcap]
    simp
  rw [hfull]
  simp only [if_true]
  unfold Cache.firstEntry
  rw [hent]
  simp only [List.head?_cons]
  unfold Cache.addEntry Cache.removeKey
  simp only [hent, List.filter_cons]
  simp [hrest0, hrestk]
  intro a b hab
  constructor
  · intro hk
    exact hfresh (Or.inr (by rw [← hk]; exact List.mem_map_of_mem Prod.fst hab))
  · intro hk
    exact hnodup.1 (by rw [← hk]; exact List.mem_map_of_mem Prod.fst hab)

/-- C7: on a cache miss that inserts a new entry, when the selected cache
(L1 if the returned size is at most the L1 line size, else L2) is full,
exactly the oldest inserted entry `(k0, e0)` is removed and exactly its
data buffer is freed before the new entry is inserted, the selected cache
ends with as many entries as its capacity, and the other cache is left
untouched — so neither cache ever holds more entries than its capacity. -/
theorem ioRequest_eviction (size pos hint : Nat)
    (findL1 findL2 : Nat → Option CacheEntry) (ctx : IoContext)
    (backend : Nat → Nat → Nat) (newBufId : Nat)
    (k0 : Nat) (e0 : CacheEntry) (rest : List (Nat × CacheEntry))
    (hmiss : (ioCheckCache size pos findL1 IO_CACHE_L1_MASK).orElse
        (fun _ => ioCheckCache size pos findL2 IO_CACHE_L2_MASK) = none)
    (hok : ¬ backend pos (max size hint) < size)
    (hsel : (if backend pos (max size hint) ≤ IO_CACHE_L1_LINESIZE then ctx.l1
        else ctx.l2).entries = (k0, e0) :: rest)
    (hcap : (if backend pos (max size hint) ≤ IO_CACHE_L1_LINESIZE then ctx.l1
        else ctx.l2).capacity = rest.length + 1)
    (hnodup : (((k0, e0) :: rest).map Prod.fst).Nodup)
    (hfresh : pos ∉ ((k0, e0) :: rest).map Prod.fst) :
    (ioRequest size pos hint findL1 findL2 ctx backend newBufId).freed = [e0.data] ∧
    (if backend pos (max size hint) ≤ IO_CACHE_L1_LINESIZE
        then (ioRequest size pos hint findL1 findL2 ctx backend newBufId).ctx.l1
        else (ioRequest size pos hint findL1 findL2 ctx backend newBufId).ctx.l2).entries =
      rest ++ [(pos, ⟨pos, backend pos (max size hint), newBufId⟩)] ∧
    (if backend pos (max size hint) ≤ IO_CACHE_L1_LINESIZE
        then (ioRequest size pos hint findL1 findL2 ctx backend newBufId).ctx.l1
        else (ioRequest size pos hint findL1 findL2 ctx backend newBufId).ctx.l2).entries.length =
      (if backend pos (max size hint) ≤ IO_CACHE_L1_LINESIZE then ctx.l1
        else ctx.l2).capacity ∧
    (if backend pos (max size hint) ≤ IO_CACHE_L1_LINESIZE
        then (ioRequest size pos hint findL1 findL2 ctx backend newBufId).ctx.l2 = ctx.l2
        else (ioRequest size pos hint findL1 findL2 ctx backend newBufId).ctx.l1 = ctx.l1) := by
  by_cases hl1 : backend pos (max size hint) ≤ IO_CACHE_L1_LINESIZE
  · rw [if_pos hl1] at hsel hcap
    have hstep := cacheInsertStep_full ctx.l1 pos
      ⟨pos, backend pos (max size hint), newBufId⟩ k0 e0 rest hsel hcap
      (hsel ▸ hnodup) (hsel ▸ hfresh)
    have hout : ioRequest size pos hint findL1 findL2 ctx backend newBufId =
        ⟨some (⟨pos, backend pos (max size hint), newBufId⟩, 0), none,
          [(pos, max size hint)],
          ⟨(cacheInsertStep ctx.l1 pos ⟨pos, backend pos (max size hint), newBufId⟩).1,
            ctx.l2, ctx.read_rqsts + 1,
            ctx.bytes_read + backend pos (max size hint)⟩,
          (cacheInsertStep ctx.l1 pos ⟨pos, backend pos (max size hint), newBufId⟩).2,
          true⟩ := by
      unfold ioRequest
      rw [hmiss]
      simp only [if_neg hok, if_pos hl1]
    rw [hout, hstep]
    refine ⟨rfl, ?_⟩
    rw [if_pos hl1, if_pos hl1, if_pos hl1]
    refine ⟨rfl, ?_, rfl⟩
    simp [hcap]
  · rw [if_neg hl1] at hsel hcap
    have hstep := cacheInsertStep_full ctx.l2 pos
      ⟨pos, backend pos (max size hint), newBufId⟩ k0 e0 rest hsel hcap
      (hsel ▸ hnodup) (hsel ▸ hfresh)
    have hout : ioRequest size pos hint findL1 findL2 ctx backend newBufId =
        ⟨some (⟨pos, backend pos (max size hint), newBufId⟩, 0), none,
          [(pos, max size hint)],
          ⟨ctx.l1,
            (cacheInsertStep ctx.l2 pos ⟨pos, backend pos (max size hint), newBufId⟩).1,
            ctx.read_rqsts + 1,
            ctx.bytes_read + backend pos (max size hint)⟩,
          (cacheInsertStep ctx.l2 pos ⟨pos, backend pos (max size hint), newBufId⟩).2,
          true⟩ := by
      unfold ioRequest
      rw [hmiss]
      simp only [if_neg hok, if_neg hl1]
    rw [hout, hstep]
    refine ⟨rfl, ?_⟩
    rw [if_neg hl1, if_neg hl1, if_neg hl1]
    refine ⟨rfl, ?_, rfl⟩
    simp [hcap]

/-- Witness for C7: a guaranteed miss on a full one-slot L1 cache holding the
entry keyed 3 with buffer 77 evicts and frees exactly that buffer and
leaves L1 with the single new entry for position 7, L2 untouched. -/
theorem ioRequest_eviction_witness :
    (ioRequest 4 7 0 (fun _ => none) (fun _ => none)
        ⟨⟨1, [(3, ⟨3, 5, 77⟩)]⟩, ⟨2, []⟩, 0, 0⟩ (fun _ _ => 5) 1).freed = [77] ∧
    (ioRequest 4 7 0 (fun _ => none) (fun _ => none)
        ⟨⟨1, [(3, ⟨3, 5, 77⟩)]⟩, ⟨2, []⟩, 0, 0⟩ (fun _ _ => 5) 1).ctx.l1.entries =
      [(7, ⟨7, 5, 1⟩)] ∧
    (ioRequest 4 7 0 (fun _ => none) (fun _ => none)
        ⟨⟨1, [(3, ⟨3, 5, 77⟩)]⟩, ⟨2, []⟩, 0, 0⟩ (fun _ _ => 5) 1).ctx.l1.entries.length = 1 ∧
    (ioRequest 4 7 0 (fun _ => none) (fun _ => none)
        ⟨⟨1, [(3, ⟨3, 5, 77⟩)]⟩, ⟨2, []⟩, 0, 0⟩ (fun _ _ => 5) 1).ctx.l2 = ⟨2, []⟩ :=
  ioRequest_eviction 4 7 0 (fun _ => none) (fun _ => none)
    ⟨⟨1, [(3, ⟨3, 5, 77⟩)]⟩, ⟨2, []⟩, 0, 0⟩ (fun _ _ => 5) 1 3 ⟨3, 5, 77⟩ []
    (by decide) (by decide) rfl rfl (by simp) (by simp)

/-- Folding multiplication over a list equals the starting value times the
product of the mapped list. -/
theorem foldl_mul_map_prod (l : List Nat) (f : Nat → Nat) (a : Nat) :
    l.foldl (fun acc d => acc * f d) a = a * (l.map f).prod := by
  induction l generalizing a with
  | nil => simp
  | cons x xs ih =>
      simp only [List.foldl_cons, List.map_cons, List.prod_cons, ih]
      ring

/-- Reading an index range out of a list by `getD` is an initial segment of
the list when the range is within bounds. -/
theorem range_map_getD_eq_take (l : List Nat) (n : Nat) (h : n ≤ l.length) :
    (List.range n).map (fun d => l.getD d 0) = l.take n := by
  apply List.ext_getElem
  · simp [Nat.min_eq_left h]
  · intro i h1 h2
    have hi : i < l.length := lt_of_lt_of_le (by simpa using h1) h
    simp only [List.getElem_map, List.getElem_range, List.getElem_take]
    rw [List.getD_eq_getElem l 0 hi]

/-- The row-size loop computes `typesize` times the product of dimensions
1 through `ndims - 1`. -/
theorem rowSize_eq (m : H5MetaData) (hdim : m.ndims ≤ m.dimensions.length) :
    rowSize m = m.typesize * ((m.dimensions.take m.ndims).drop 1).prod := by
  unfold rowSize rowSizeLoop
  rw [foldl_mul_map_prod]
  congr 1
  rw [show ((List.range m.ndims).drop 1).map (fun d => m.dimensions.getD d 0) =
      (((List.range m.ndims).map (fun d => m.dimensions.getD d 0)).drop 1) by
    rw [List.map_drop]]
  rw [range_map_getD_eq_take m.dimensions m.ndims hdim]

/-- C2: in `readDataset`, an `ALL_ROWS` row count is replaced by
`dimensions[0]` (taken as 0 when `ndims = 0`), the read fails with the
out-of-range error exactly when `startrow` plus the substituted row count
exceeds `dimensions[0]`, and on success the output buffer holds exactly
`row_size * numrows` bytes, where `row_size` is `typesize` times the
product of `dimensions[1 .. ndims-1]`. -/
theorem readDataset_rows_and_size (m : H5MetaData) (startrow : Nat)
    (numrows : Int) (ec : Bool) (ht : 0 < m.typesize)
    (hn : numrows = ALL_ROWS ∨ 0 ≤ numrows)
    (hdim : m.ndims ≤ m.dimensions.length) :
    (readDataset m startrow numrows ec = .error H5Err.outOfRange ↔
      (firstDimension m : Int) <
        startrow + (if numrows = ALL_ROWS then (firstDimension m : Int) else numrows)) ∧
    (∀ info, readDataset m startrow numrows ec = .ok info →
      info.datasize =
        m.typesize * ((m.dimensions.take m.ndims).drop 1).prod * adjNumRowsN m numrows ∧
      info.numrows = adjNumRowsN m numrows) := by
  have htz : ¬ m.typesize = 0 := by omega
  have h0 : 0 ≤ adjNumRows m numrows := by
    rcases hn with h | h
    · simp [adjNumRows, h]
    · unfold adjNumRows
      split
      · exact Int.ofNat_nonneg _
      · exact h
  have hcast : (adjNumRowsN m numrows : Int) = adjNumRows m numrows :=
    Int.toNat_of_nonneg h0
  have hrhs : ((firstDimension m : Int) <
      startrow + (if numrows = ALL_ROWS then (firstDimension m : Int) else numrows)) ↔
      firstDimension m < startrow + adjNumRowsN m numrows := by
    rw [show (if numrows = ALL_ROWS then (firstDimension m : Int) else numrows) =
        adjNumRows m numrows from rfl, ← hcast]
    constructor
    · intro h
      exact_mod_cast h
    · intro h
      exact_mod_cast h
  constructor
  · rw [hrhs]
    unfold readDataset
    rw [if_neg htz]
    by_cases hg : firstDimension m < startrow + adjNumRowsN m numrows
    · rw [if_pos hg]
      simp [hg]
    · rw [if_neg hg]
      constructor
      · intro h
        exfalso
        split at h
        · split at h
          · simp at h
          · split at h
            · simp at h
            · split at h
              · simp at h
              · simp at h
        · simp at h
      · intro h
        exact absurd h hg
  · intro info h
    unfold readDataset at h
    rw [if_neg htz] at h
    split at h
    · exact absurd h (by simp)
    · have hinfo : info = dataInfoOf m numrows := by
        split at h
        · split at h
          · exact absurd h (by simp)
          · split at h
            · exact absurd h (by simp)
            · split at h
              · exact absurd h (by simp)
              · exact (Except.ok.injEq _ _).mp h.symm
        · exact (Except.ok.injEq _ _).mp h.symm
      subst hinfo
      refine ⟨?_, rfl⟩
      show bufferSizeOf m numrows = _
      unfold bufferSizeOf
      rw [rowSize_eq m hdim]

/-- Witness for C2: a 10-by-3 dataset of 4-byte elements, requested from
row 2 for 5 rows, is in range. -/
theorem readDataset_rows_and_size_witness :
    (readDataset ⟨4, 2, [10, 3], 0, 0, H5DataType.fixedPoint, H5Layout.chunked,
        0, 0, false, false⟩ 2 5 true = .error H5Err.outOfRange ↔
      ((firstDimension ⟨4, 2, [10, 3], 0, 0, H5DataType.fixedPoint, H5Layout.chunked,
        0, 0, false, false⟩ : Int) < 2 + (5 : Int))) :=
  (readDataset_rows_and_size
    ⟨4, 2, [10, 3], 0, 0, H5DataType.fixedPoint, H5Layout.chunked, 0, 0, false, false⟩
    2 5 true (by decide) (Or.inr (by decide)) (by decide)).1

/-- C10: whenever `readDataset` succeeds with a zero-byte output (row count
0 after substitution, a scalar dataset, or an empty first dimension), the
data pointer stays NULL with zero elements, and the data-valid gate of
`H5Coro::read` then raises the failed-to-read error — the public API never
returns an empty zero-byte result. -/
theorem readDataset_zero_size_gate (m : H5MetaData) (startrow : Nat)
    (numrows : Int) (ec : Bool) (info : DatasetInfo)
    (h : readDataset m startrow numrows ec = .ok info)
    (h0 : info.datasize = 0) :
    info.data = none ∧ info.elements = 0 ∧
      h5ReadGate info = .error H5Err.readFailed := by
  have hinfo : info = dataInfoOf m numrows := by
    unfold readDataset at h
    split at h
    · exact absurd h (by simp)
    · split at h
      · exact absurd h (by simp)
      · split at h
        · split at h
          · exact absurd h (by simp)
          · split at h
            · exact absurd h (by simp)
            · split at h
              · exact absurd h (by simp)
              · exact (Except.ok.injEq _ _).mp h.symm
        · exact (Except.ok.injEq _ _).mp h.symm
  subst hinfo
  have hbz : bufferSizeOf m numrows = 0 := h0
  refine ⟨?_, ?_, ?_⟩
  · show (if 0 < bufferSizeOf m numrows then _ else none) = none
    rw [hbz]
    rfl
  · show bufferSizeOf m numrows / m.typesize = 0
    rw [hbz]
    exact Nat.zero_div _
  · unfold h5ReadGate
    have hd : (dataInfoOf m numrows).data = none := by
      show (if 0 < bufferSizeOf m numrows then _ else none) = none
      rw [hbz]
      rfl
    rw [hd]

/-- Witness for C10: a one-dimensional dataset of 5 rows read for 0 rows
parses successfully, yields a NULL zero-element result, and the public
read gate raises the failed-to-read error. -/
theorem readDataset_zero_size_gate_witness :
    (dataInfoOf ⟨4, 1, [5], 0, 0, H5DataType.fixedPoint, H5Layout.chunked,
        0, 0, false, false⟩ 0).data = none ∧
    (dataInfoOf ⟨4, 1, [5], 0, 0, H5DataType.fixedPoint, H5Layout.chunked,
        0, 0, false, false⟩ 0).elements = 0 ∧
    h5ReadGate (dataInfoOf ⟨4, 1, [5], 0, 0, H5DataType.fixedPoint, H5Layout.chunked,
        0, 0, false, false⟩ 0) = .error H5Err.readFailed :=
  readDataset_zero_size_gate
    ⟨4, 1, [5], 0, 0, H5DataType.fixedPoint, H5Layout.chunked, 0, 0, false, false⟩
    3 0 true (dataInfoOf ⟨4, 1, [5], 0, 0, H5DataType.fixedPoint, H5Layout.chunked,
      0, 0, false, false⟩ 0) rfl rfl

/-- Length of the copied column buffer: `col_size` bytes per row. -/
theorem colCopy_length (data : List Nat) (rs cs col : Nat) :
    ∀ n, (colCopy data rs cs col n).length = n * cs := by
  intro n
  induction n with
  | zero => simp [colCopy]
  | succ k ih =>
      simp only [colCopy, List.length_append, ih, List.length_map,
        List.length_range, Nat.succ_mul]

/-- Reading the mapped range list at an in-bounds index gives the mapped
value. -/
theorem range_map_getD (f : Nat → Nat) (cs j : Nat) (hj : j < cs) :
    ((List.range cs).map f).getD j 0 = f j := by
  have hlen : j < ((List.range cs).map f).length := by simpa using hj
  rw [List.getD_eq_getElem _ _ hlen]
  simp

/-- Byte `j` of row `i` of the copied column buffer equals input byte
`i * row_size + col * col_size + j`. -/
theorem colCopy_getD (data : List Nat) (rs cs col : Nat) :
    ∀ n i j, i < n → j < cs →
      (colCopy data rs cs col n).getD (i * cs + j) 0 =
        data.getD (i * rs + col * cs + j) 0 := by
  intro n
  induction n with
  | zero =>
      intro i j hi _
      exact absurd hi (Nat.not_lt_zero i)
  | succ k ih =>
      intro i j hi hj
      rcases Nat.lt_succ_iff_lt_or_eq.mp hi with h | h
      · simp only [colCopy]
        rw [List.getD_append]
        · exact ih i j h hj
        · rw [colCopy_length]
          calc i * cs + j < i * cs + cs := by omega
            _ = (i + 1) * cs := by ring
            _ ≤ k * cs := Nat.mul_le_mul_right cs h
      · rw [h]
        simp only [colCopy]
        rw [List.getD_append_right]
        · rw [colCopy_length]
          rw [show k * cs + j - k * cs = j from by omega]
          exact range_map_getD _ cs j hj
        · rw [colCopy_length]
          omega

/-- C5: for a successful read with more than one column and a requested
column `col < numcols`, the column translation returns a buffer of
`datasize / numcols` bytes holding `elements / numcols` elements, and for
every row `i < numrows` the bytes of row `i` equal the
`col_size = row_size / numcols` input bytes at offset
`i * row_size + col * col_size` of the full row-range data. -/
theorem h5ColumnStep_selects_column (info : DatasetInfo) (d : List Nat)
    (col col_size : Nat)
    (hd : info.data = some d)
    (hrows : 0 < info.numrows) (hcols : 1 < info.numcols)
    (_hcol : col < info.numcols)
    (hlen : d.length = info.numrows * (info.numcols * col_size))
    (hds : info.datasize = d.length) :
    (h5ColumnStep info col).datasize = info.datasize / info.numcols ∧
    (h5ColumnStep info col).elements = info.elements / info.numcols ∧
    ((h5ColumnStep info col).data.getD []).length = info.numrows * col_size ∧
    (∀ i j, i < info.numrows → j < col_size →
      ((h5ColumnStep info col).data.getD []).getD (i * col_size + j) 0 =
        d.getD (i * (info.numcols * col_size) + col * col_size + j) 0) := by
  have hrow : info.datasize / info.numrows = info.numcols * col_size := by
    rw [hds, hlen]
    exact Nat.mul_div_cancel_left _ hrows
  have hcolsz : info.datasize / info.numrows / info.numcols = col_size := by
    rw [hrow]
    exact Nat.mul_div_cancel_left _ (by omega)
  have hc0 : 0 < info.numcols := by omega
  refine ⟨rfl, rfl, ?_, ?_⟩
  · show (colCopy (info.data.getD []) (info.datasize / info.numrows)
        (info.datasize / info.numrows / info.numcols) col info.numrows).length = _
    rw [hd, hrow, Option.getD_some, Nat.mul_div_cancel_left _ hc0, colCopy_length]
  · intro i j hi hj
    show (colCopy (info.data.getD []) (info.datasize / info.numrows)
        (info.datasize / info.numrows / info.numcols) col info.numrows).getD _ 0 = _
    rw [hd, hrow, Option.getD_some, Nat.mul_div_cancel_left _ hc0]
    exact colCopy_getD d (info.numcols * col_size) col_size col info.numrows i j hi hj

/-- Witness for C5: a 3-row, 2-column dataset of 4-byte elements whose 24
bytes are 0..23; byte 1 of row 2 in the selected column 1 equals input
byte 2 * 8 + 1 * 4 + 1 = 21. -/
theorem h5ColumnStep_selects_column_witness :
    ((h5ColumnStep ⟨4, 6, 24, some (List.range 24), ValType.integer, 3, 2⟩
        1).data.getD []).getD (2 * 4 + 1) 0 =
      (List.range 24).getD (2 * (2 * 4) + 1 * 4 + 1) 0 :=
  (h5ColumnStep_selects_column
    ⟨4, 6, 24, some (List.range 24), ValType.integer, 3, 2⟩ (List.range 24) 1 4
    rfl (by decide) (by decide) (by decide) (by decide) (by decide)).2.2.2
    2 1 (by decide) (by decide)

/-- Sum of a mapped index range all of whose positive-index terms vanish. -/
theorem sum_map_range_zero_tail (f : Nat → Nat) (n : Nat)
    (hf : ∀ i, 1 ≤ i → i < n → f i = 0) (hn : 0 < n) :
    ((List.range n).map f).sum = f 0 := by
  induction n with
  | zero => omega
  | succ k ih =>
      rw [List.range_succ, List.map_append, List.sum_append]
      rcases Nat.eq_zero_or_pos k with hk | hk
      · subst hk
        simp
      · rw [ih (fun i h1 h2 => hf i h1 (by omega)) hk]
        simp [hf k (by omega) (by omega)]

/-- C3: for a leaf chunk whose key has `slice[i] = 0` for every dimension
`i ≥ 1` (a column-0 chunk), the chunk offset computed by the loop equals
`slice[0] * row_size`; and whenever the copy-parameter computation
succeeds with `buffer_offset = startrow * row_size`, the parameters equal
`buffer_index = max(0, chunk_offset - buffer_offset)`,
`chunk_index = max(0, buffer_offset - chunk_offset)` and
`chunk_bytes = min(chunk_buffer_size - chunk_index, buffer_size -
buffer_index)`. -/
theorem btreeLeafChunkParams (slice dims : List Nat)
    (typesize ndims startrow : Nat) (bs cbs co bo bi ci cb : Int)
    (hnd : 0 < ndims)
    (hz : ∀ i, i < ndims → 1 ≤ i → slice.getD i 0 = 0)
    (hco : co = (chunkOffsetCalc slice dims typesize ndims : Nat))
    (hbo : bo = (startrow * rowSizeLoop typesize ndims dims : Nat))
    (h : chunkCopyParams co bo bs cbs = .ok (bi, ci, cb)) :
    chunkOffsetCalc slice dims typesize ndims =
      slice.getD 0 0 * rowSizeLoop typesize ndims dims ∧
    bi = max 0 (co - bo) ∧ ci = max 0 (bo - co) ∧
    cb = min (cbs - ci) (bs - bi) := by
  constructor
  · unfold chunkOffsetCalc
    rw [sum_map_range_zero_tail _ ndims ?_ hnd]
    · rw [foldl_mul_map_prod]
      unfold rowSizeLoop
      rw [foldl_mul_map_prod]
      ring
    · intro i h1 h2
      rw [hz i h2 h1, foldl_mul_map_prod]
      simp
  · unfold chunkCopyParams at h
    split at h
    · exact absurd h (by simp)
    · split at h
      · exact absurd h (by simp)
      · by_cases hbc : bo < co
        · have hcb2 : ¬ co < bo := by omega
          simp only [if_pos hbc, if_neg hcb2] at h
          split at h
          · exact absurd h (by simp)
          · injection h with h
            injection h with hbi h
            injection h with hci hcb3
            subst hbi
            subst hci
            subst hcb3
            refine ⟨by omega, by omega, ?_⟩
            by_cases hclamp : bs < co - bo + (cbs - 0)
            · rw [if_pos hclamp]
              omega
            · rw [if_neg hclamp]
              omega
        · simp only [if_neg hbc] at h
          by_cases hcb2 : co < bo
          · simp only [if_pos hcb2] at h
            split at h
            · exact absurd h (by simp)
            · injection h with h
              injection h with hbi h
              injection h with hci hcb3
              subst hbi
              subst hci
              subst hcb3
              refine ⟨by omega, by omega, ?_⟩
              by_cases hclamp : bs < 0 + (cbs - (bo - co))
              · rw [if_pos hclamp]
                omega
              · rw [if_neg hclamp]
                omega
          · simp only [if_neg hcb2] at h
            split at h
            · exact absurd h (by simp)
            · injection h with h
              injection h with hbi h
              injection h with hci hcb3
              subst hbi
              subst hci
              subst hcb3
              refine ⟨by omega, by omega, ?_⟩
              by_cases hclamp : bs < 0 + (cbs - 0)
              · rw [if_pos hclamp]
                omega
              · rw [if_neg hclamp]
                omega

/-- Witness for C3: a two-dimensional 4-byte dataset with dimensions
`[10, 2]` (row size 8), leaf key `slice = [3, 0]` (chunk offset 24),
start row 1 (buffer offset 8), buffer size 40 and chunk buffer size 16. -/
theorem btreeLeafChunkParams_witness :
    chunkOffsetCalc [3, 0] [10, 2] 4 2 =
      [3, 0].getD 0 0 * rowSizeLoop 4 2 [10, 2] ∧
    (16 : Int) = max 0 (24 - 8) ∧ (0 : Int) = max 0 (8 - 24) ∧
    (16 : Int) = min (16 - 0) (40 - 16) :=
  btreeLeafChunkParams [3, 0] [10, 2] 4 2 1 40 16 24 8 16 0 16
    (by decide) (by decide) rfl rfl rfl

/-- C8 (code bug): with error checking enabled, `shuffleChunk` accepts
`type_size = 0`: the guard tests `type_size < 0 || type_size > 8`, so a
zero type size is not rejected and the C code goes on to evaluate
`input_size / type_size`, a division by zero — while the spec requires
every `type_size` outside `[1, 8]` to fail. -/
theorem shuffleChunk_zero_passes_guard :
    shuffleChunk [1, 2, 3, 4] 0 4 0 true = .ok [] := rfl

/-- C9 (code bug): `traverse` returns `true` for every outcome of the open
and walk — in particular when opening the resource fails — because the
`catch` block only logs and never clears `status`, while the spec says
the boolean reports success. -/
theorem traverse_always_true :
    (∀ r : Except H5Err Unit, H5Coro.traverse r = true) ∧
      H5Coro.traverse (.error H5Err.openFailed) = true :=
  ⟨fun r => by cases r <;> rfl, rfl⟩

/-- Counterexample to C6 as stated: the "full URL" the repository compares
is `<basename(resource)>/<dataset>`, so the two distinct resources `a/f`
and `b/f` construct identical URLs (hence identical, colliding keys), and
a lookup on behalf of `b/f` is served the entry memoized for `a/f`. -/
theorem metaLookup_shared_basename_collision :
    (['a', '/', 'f'] : List Char) ≠ ['b', '/', 'f'] ∧
    metaGetUrl ['a', '/', 'f'] ['d'] = metaGetUrl ['b', '/', 'f'] ['d'] ∧
    metaLookup [(metaGetKey (metaGetUrl ['a', '/', 'f'] ['d']),
        ⟨metaGetUrl ['a', '/', 'f'] ['d'], 1⟩)] ['b', '/', 'f'] ['d'] =
      some ⟨metaGetUrl ['a', '/', 'f'] ['d'], 1⟩ :=
  ⟨by decide, by decide, rfl⟩

/-- C6 (amended): a repository lookup is reported as a hit only when the
stored entry's constructed URL `<basename(resource)>/<dataset>` is
exactly equal to the requester's constructed URL; entries whose keys
collide but whose constructed URLs differ are never served from each
other's memoized metadata.  (Distinct resources sharing basename and
dataset path construct the same URL and do share the entry.) -/
theorem metaLookup_exact_url (repo : List (Nat × MetaEntry))
    (resource dataset : List Char) (m : MetaEntry)
    (h : metaLookup repo resource dataset = some m) :
    m.url = metaGetUrl resource dataset := by
  unfold metaLookup at h
  split at h
  · split at h
    · rename_i hurl
      cases h
      exact hurl
    · exact absurd h (by simp)
  · exact absurd h (by simp)

/-- Witness for the amended C6: the concrete lookup of the counterexample
repository indeed returns an entry whose stored URL equals the
requester's constructed URL. -/
theorem metaLookup_exact_url_witness :
    (⟨metaGetUrl ['a', '/', 'f'] ['d'], 1⟩ : MetaEntry).url =
      metaGetUrl ['b', '/', 'f'] ['d'] :=
  metaLookup_exact_url
    [(metaGetKey (metaGetUrl ['a', '/', 'f'] ['d']),
      ⟨metaGetUrl ['a', '/', 'f'] ['d'], 1⟩)]
    ['b', '/', 'f'] ['d'] ⟨metaGetUrl ['a', '/', 'f'] ['d'], 1⟩ rfl
